import Mathlib

/-!
Verification of the spotpriceadvisor repository core against its
specification.

The repository has three variants of the advisor:
  * `spotpriceadvisor_api.py` (quarter-hour data from an HTTP API),
  * `spotpriceadvisor-q15.py`  (quarter-hour data from a database),
  * `spotpriceadvisor.py`      (hourly data from a database).

Prices in the two quarter-hour variants are Python `Decimal` values and all
arithmetic on them (sums, averages, comparisons, the `0.90` threshold, the
`1.255` tax multiplier) is exact decimal arithmetic, which we embed as `ℚ`.
Timestamps are epoch seconds, embedded as `Int`.
-/

namespace SpotPriceAdvisor

/--
The running-sum loop shared verbatim by `best_q15_window` in
`spotpriceadvisor_api.py` (lines 250-258) and `spotpriceadvisor-q15.py`
(lines 160-168):

  run = sum(prices[:window_q]); best_sum = run; best_idx = 0
  for i in range(window_q, n):
      run += prices[i] - prices[i - window_q]
      if run < best_sum:
          best_sum = run
          best_idx = i - window_q

The iteration over `i in range(window_q, n)` walks two cursors through the
price list: `entering` is `prices[i:]` (the price entering the window) and
`leaving` is `prices[i - window_q:]` (the price leaving it); the counter
`start` carries the value `i - window_q` that the source assigns to
`best_idx` on a strict improvement.  The result is `(best_sum, best_idx)`.
-/
def slideAux (start : ℕ) : List ℚ → List ℚ → ℚ → ℚ → ℕ → ℚ × ℕ
  | [], _, _, bestSum, bestIdx => (bestSum, bestIdx)
  | _ :: _, [], _, bestSum, bestIdx => (bestSum, bestIdx)
  | e :: es, l :: ls, run, bestSum, bestIdx =>
      let run2 := run + e - l
      if run2 < bestSum then slideAux (start + 1) es ls run2 run2 start
      else slideAux (start + 1) es ls run2 bestSum bestIdx

/--
Entry point of the running-sum loop: `run` starts as `sum(prices[:window_q])`,
`best_sum = run`, `best_idx = 0`, and the loop runs `i` from `window_q` to
`len(prices) - 1`, so the entering cursor starts at `prices[window_q:]` and
the leaving cursor at `prices[0:]`.
-/
def slideLoop (prices : List ℚ) (w : ℕ) : ℚ × ℕ :=
  let run0 := (prices.take w).sum
  slideAux 0 (prices.drop w) prices run0 run0 0

/-- Arithmetic mean of the contiguous sub-run of `prices` of length `w`
starting at index `j` (the quantity the spec's brute force recomputes for
every window). -/
def windowAvg (prices : List ℚ) (j w : ℕ) : ℚ := ((prices.drop j).take w).sum / w

namespace Api

/--
`best_q15_window(ts_prices, window_q)` from `spotpriceadvisor_api.py`
(lines 240-260): if fewer than `window_q` points, `None`; otherwise run the
sliding loop over all prices (this variant performs no gap segmentation) and
return `(ts_prices[best_idx][0], best_sum / window_q)`.
-/
def best_q15_window (tsPrices : List (Int × ℚ)) (windowQ : ℕ) : Option (Int × ℚ) :=
  if tsPrices.length < windowQ then none
  else
    let st := slideLoop (tsPrices.map Prod.snd) windowQ
    some ((tsPrices.getD st.2 (0, 0)).1, st.1 / windowQ)

end Api

namespace Q15

/--
The `clean` list built by `best_q15_window` in `spotpriceadvisor-q15.py`
(lines 142-150): walk the points keeping `prev_ts`; whenever
`ts - prev_ts != 900` insert a `(None, None)` break marker (embedded as
`none`) before the point.
-/
def addMarkers : Option Int → List (Int × ℚ) → List (Option (Int × ℚ))
  | _, [] => []
  | none, x :: rest => some x :: addMarkers (some x.1) rest
  | some prev, x :: rest =>
      if x.1 - prev ≠ 900 then none :: some x :: addMarkers (some x.1) rest
      else some x :: addMarkers (some x.1) rest

/--
Processing of one completed segment in `spotpriceadvisor-q15.py`
(lines 158-172): if the segment has at least `window_q` points, run the
sliding loop over its prices, form `(start_ts, avg)` with
`start_ts = segment[best_idx][0]` and `avg = best_sum / window_q`, and keep
it if `best` is still `None` or the new average is strictly smaller.
-/
def segmentBest (segment : List (Int × ℚ)) (w : ℕ) (best : Option (Int × ℚ)) :
    Option (Int × ℚ) :=
  if w ≤ segment.length then
    let st := slideLoop (segment.map Prod.snd) w
    let avg := st.1 / w
    let startTs := (segment.getD st.2 (0, 0)).1
    match best with
    | none => some (startTs, avg)
    | some b => if avg < b.2 then some (startTs, avg) else some b
  else best

/--
The loop `for item in clean + [(None, None)]` of `spotpriceadvisor-q15.py`
(lines 155-175): accumulate the current segment; on a break marker process
the segment and reset it.
-/
def processLoop (w : ℕ) :
    List (Option (Int × ℚ)) → Option (Int × ℚ) → List (Int × ℚ) → Option (Int × ℚ)
  | [], best, _ => best
  | none :: rest, best, segment => processLoop w rest (segmentBest segment w best) []
  | some x :: rest, best, segment => processLoop w rest best (segment ++ [x])

/--
`best_q15_window(ts_prices, window_q)` from `spotpriceadvisor-q15.py`
(lines 131-177): `None` if fewer than `window_q` points overall; otherwise
split the series at every non-900 s jump and search each gap-free chain
separately, keeping the strictly smallest average.
-/
def best_q15_window (tsPrices : List (Int × ℚ)) (windowQ : ℕ) : Option (Int × ℚ) :=
  if tsPrices.length < windowQ then none
  else processLoop windowQ (addMarkers none tsPrices ++ [none]) none []

end Q15

/--
Modelled from the spec (section 4.2 and testable property 1): the brute-force
reference for `best_window`.  It recomputes from scratch the arithmetic mean
of every contiguous sub-run of length `window_q`, takes the smallest average,
and returns the earliest window attaining it.  This definition follows the
spec's words and exists only to be compared with the source-derived
implementations above.
-/
def bruteForceBestWindow (tsPrices : List (Int × ℚ)) (w : ℕ) : Option (Int × ℚ) :=
  if w = 0 ∨ tsPrices.length < w then none
  else
    let prices := tsPrices.map Prod.snd
    let avgs := (List.range (tsPrices.length - w + 1)).map (fun j => windowAvg prices j w)
    let m := avgs.foldl min (windowAvg prices 0 w)
    let j := avgs.findIdx (fun a => decide (a = m))
    some ((tsPrices.getD j (0, 0)).1, m)

/--
Claim C1: the sliding running-sum search is claimed to return the same window
(start timestamp and average) as the brute force on gap-free input.  It does
not: on the gap-free series `[(0,5),(900,1),(1800,1),(2700,5)]` with
`window_q = 2`, both `best_q15_window` implementations return start `0` while
the brute force returns start `900` (the true start of the unique minimal
window `[1,1]`): the loop stores `best_idx = i - window_q` where the window
whose sum it just computed starts at `i - window_q + 1`.
-/
theorem best_window_start_off_by_one :
    Api.best_q15_window [((0:Int),(5:ℚ)), (900, 1), (1800, 1), (2700, 5)] 2 = some (0, 1)
    ∧ Q15.best_q15_window [((0:Int),(5:ℚ)), (900, 1), (1800, 1), (2700, 5)] 2 = some (0, 1)
    ∧ bruteForceBestWindow [((0:Int),(5:ℚ)), (900, 1), (1800, 1), (2700, 5)] 2
        = some (900, 1) := by
  refine ⟨?_, ?_, ?_⟩
  · norm_num [Api.best_q15_window, slideLoop, slideAux, List.getD]
  · norm_num [Q15.best_q15_window, Q15.processLoop, Q15.addMarkers, Q15.segmentBest,
      slideLoop, slideAux, List.getD]
  · norm_num [bruteForceBestWindow, windowAvg, List.range, List.range.loop, List.findIdx,
      List.findIdx.go, List.getD, min_def]

/--
Claim C2: the spec's gap-isolation series `[(T,5),(T+900,6),(T+1800,7),
(T+900*20,2),(T+900*21,2),(T+900*22,2)]` (here `T = 0`) with window length 3
must yield the window starting at `T+900*20 = 18000`.  The DB quarter-hour
variant, which segments at gaps, returns `(18000, 2)` as required, but the
API variant runs the sliding loop over the whole series without any
segmentation and returns start `1800`, whose three consecutive series points
`(1800,7),(18000,2),(18900,2)` straddle the gap (`18000 - 1800 ≠ 900`).
-/
theorem api_best_window_straddles_gap :
    Api.best_q15_window
        [((0:Int),(5:ℚ)), (900, 6), (1800, 7), (18000, 2), (18900, 2), (19800, 2)] 3
      = some (1800, 2)
    ∧ Q15.best_q15_window
        [((0:Int),(5:ℚ)), (900, 6), (1800, 7), (18000, 2), (18900, 2), (19800, 2)] 3
      = some (18000, 2)
    ∧ ((18000 : Int) - 1800 ≠ 900) := by
  refine ⟨?_, ?_, by norm_num⟩
  · norm_num [Api.best_q15_window, slideLoop, slideAux, List.getD]
  · norm_num [Q15.best_q15_window, Q15.processLoop, Q15.addMarkers, Q15.segmentBest,
      slideLoop, slideAux, List.getD]

/--
Claim C3: with two or more distinct windows sharing the identical minimal
average, the search is claimed to return the window with the earliest start
timestamp.  On `[(0,9),(900,1),(1800,3),(2700,1),(3600,3)]` with
`window_q = 2` the windows starting at indices 1, 2 and 3 all average `2`
(the minimum); the earliest starts at timestamp `900` (as the brute force
returns), but `best_q15_window` returns start `0` — the off-by-one start
index again, so not even a minimal-average window's start.
-/
theorem best_window_tie_break_mismatch :
    windowAvg [9, 1, 3, 1, 3] 1 2 = 2
    ∧ windowAvg [9, 1, 3, 1, 3] 3 2 = 2
    ∧ bruteForceBestWindow [((0:Int),(9:ℚ)), (900, 1), (1800, 3), (2700, 1), (3600, 3)] 2
        = some (900, 2)
    ∧ Api.best_q15_window [((0:Int),(9:ℚ)), (900, 1), (1800, 3), (2700, 1), (3600, 3)] 2
        = some (0, 2) := by
  refine ⟨?_, ?_, ?_, ?_⟩
  · norm_num [windowAvg]
  · norm_num [windowAvg]
  · norm_num [bruteForceBestWindow, windowAvg, List.range, List.range.loop, List.findIdx,
      List.findIdx.go, List.getD, min_def]
  · norm_num [Api.best_q15_window, slideLoop, slideAux, List.getD]

/-- Candidate labels used by the advisors (`"current"`, `"12h"`, `"future"`). -/
inductive Label
  | current
  | h12
  | future
  deriving DecidableEq

/-- The decision reported by the final sentence of the advisors: the
"expensive" sentence, the "best moment is now" sentence, or the "best moment
starts at `startTs`" sentence. -/
inductive Decision
  | expensive
  | startNow
  | startLater (startTs : Int)
  deriving DecidableEq

/--
The candidate list built by `advisor` in `spotpriceadvisor_api.py`
(lines 344-350): the current window always, then the 12 h best and the
full-horizon best when present, in that order.
-/
def candidatesOf (curTs : Int) (currentAvg : ℚ) (best12h bestAll : Option (Int × ℚ)) :
    List (Int × ℚ × Label) :=
  (curTs, currentAvg, Label.current) ::
    ((match best12h with
      | none => []
      | some b => [(b.1, b.2, Label.h12)]) ++
      (match bestAll with
      | none => []
      | some b => [(b.1, b.2, Label.future)]))

/--
Python's `min(candidates, key=lambda x: x[1])` (line 352): scan left to
right and replace the best-so-far only when the key is strictly smaller, so
the first element attaining the minimum wins.  Python raises on an empty
list; the advisors never call it on one, and the embedding returns a dummy.
-/
def pyMinByAvg : List (Int × ℚ × Label) → Int × ℚ × Label
  | [] => (0, 0, Label.current)
  | c :: rest => rest.foldl (fun b x => if x.2.1 < b.2.1 then x else b) c

/--
The final classification of `advisor` in `spotpriceadvisor_api.py`
(lines 352-368): pick the minimum candidate, then `expensive` when
`best_avg >= past_avg * Decimal("0.90")`, else `best_now` when the chosen
label is `"current"`, else `best_later` with the chosen start timestamp.
(`spotpriceadvisor-q15.py` lines 289-299 is the same logic.)
-/
def advisorDecision (curTs : Int) (currentAvg : ℚ) (best12h bestAll : Option (Int × ℚ))
    (pastAvg : ℚ) : Decision :=
  let best := pyMinByAvg (candidatesOf curTs currentAvg best12h bestAll)
  if pastAvg * (0.90 : ℚ) ≤ best.2.1 then Decision.expensive
  else if best.2.2 = Label.current then Decision.startNow
  else Decision.startLater best.1

/--
Claim C4, counterexample to the claim as stated: with the current-window
average, the 12 h best average and the full-horizon best average all equal
to `10` and the baseline average also `10`, the decision is `expensive`
(the common average is not below `10 * 0.90`), not `startNow` as the claim
asserts for every all-equal configuration.
-/
theorem advisor_equal_averages_counterexample :
    advisorDecision 0 10 (some (900, 10)) (some (1800, 10)) 10 = Decision.expensive
    ∧ Decision.expensive ≠ Decision.startNow := by
  refine ⟨?_, by simp⟩
  norm_num [advisorDecision, candidatesOf, pyMinByAvg]

/--
Claim C4 as amended: when the three candidate averages are all numerically
equal, the chosen candidate is the `current` one (the scan only replaces on
a strict improvement, and the current candidate comes first in the fixed
order current, 12 h, full horizon); the decision is then `startNow` when the
common average passes the cheapness test against `baseline * 0.90` and
`expensive` otherwise.
-/
theorem advisor_equal_averages_tie_break (curTs t2 t3 : Int) (a pastAvg : ℚ) :
    (pyMinByAvg (candidatesOf curTs a (some (t2, a)) (some (t3, a)))).2.2 = Label.current
    ∧ advisorDecision curTs a (some (t2, a)) (some (t3, a)) pastAvg
        = if a < pastAvg * (0.90 : ℚ) then Decision.startNow else Decision.expensive := by
  have hmin : pyMinByAvg (candidatesOf curTs a (some (t2, a)) (some (t3, a)))
      = (curTs, a, Label.current) := by
    simp [pyMinByAvg, candidatesOf]
  refine ⟨by rw [hmin], ?_⟩
  simp only [advisorDecision, hmin]
  rcases lt_or_le a (pastAvg * (0.90 : ℚ)) with h | h
  · simp [h, not_le.mpr h]
  · simp [h, not_lt.mpr h]

/-- Claim C4 witness: the amended statement instantiated at a concrete
all-equal configuration that passes the cheapness test. -/
theorem advisor_equal_averages_tie_break_witness :
    advisorDecision 0 8 (some (900, 8)) (some (1800, 8)) 10 = Decision.startNow := by
  have h := (advisor_equal_averages_tie_break 0 900 1800 8 10).2
  rw [h, if_pos (by norm_num)]

/--
Claim C5: the decision is `expensive` exactly when the chosen candidate's
average is not strictly below `baseline * 0.90`; in particular a chosen
average exactly equal to `baseline * 0.90` yields `expensive`.
-/
theorem advisor_expensive_iff_threshold (curTs : Int) (a pastAvg : ℚ)
    (best12h bestAll : Option (Int × ℚ)) :
    (advisorDecision curTs a best12h bestAll pastAvg = Decision.expensive
      ↔ ¬ (pyMinByAvg (candidatesOf curTs a best12h bestAll)).2.1 < pastAvg * (0.90 : ℚ))
    ∧ advisorDecision curTs (pastAvg * (0.90 : ℚ)) none none pastAvg
        = Decision.expensive := by
  constructor
  · simp only [advisorDecision, not_lt]
    split_ifs with h1 h2 <;> simp [h1]
  · simp [advisorDecision, candidatesOf, pyMinByAvg]

/-- Claim C5 witness: the boundary case at concrete values — baseline `10`,
chosen average exactly `9 = 10 * 0.90`, decision `expensive`. -/
theorem advisor_expensive_iff_threshold_witness :
    advisorDecision 0 (10 * (0.90 : ℚ)) none none 10 = Decision.expensive :=
  (advisor_expensive_iff_threshold 0 (10 * (0.90 : ℚ)) 10 none none).2

/--
Claim C6: both `best_q15_window` implementations return `None` on any input
with fewer than `window_q` points — the `if n < window_q: return None`
guard at the top of each (`spotpriceadvisor_api.py` lines 246-248,
`spotpriceadvisor-q15.py` lines 137-139) — and, being total functions of
their input, never raise.
-/
theorem best_window_insufficient_data (tsPrices : List (Int × ℚ)) (w : ℕ)
    (_hw : 1 ≤ w) (hlen : tsPrices.length < w) :
    Api.best_q15_window tsPrices w = none ∧ Q15.best_q15_window tsPrices w = none := by
  constructor
  · simp [Api.best_q15_window, hlen]
  · simp [Q15.best_q15_window, hlen]

/-- Claim C6 witness: a one-point series with `window_q = 2`. -/
theorem best_window_insufficient_data_witness :
    1 ≤ 2 ∧ [((0 : Int), (1 : ℚ))].length < 2
    ∧ Api.best_q15_window [((0 : Int), (1 : ℚ))] 2 = none
    ∧ Q15.best_q15_window [((0 : Int), (1 : ℚ))] 2 = none := by
  have h := best_window_insufficient_data [((0 : Int), (1 : ℚ))] 2 (by norm_num) (by norm_num)
  exact ⟨by norm_num, by norm_num, h.1, h.2⟩

/--
`taxedprice_eur_per_kwh(net_eur_per_kwh) = net_eur_per_kwh * Decimal("1.255")`
from `spotpriceadvisor_api.py` lines 131-132 (identically
`spotpriceadvisor-q15.py` lines 53-54); `Decimal` arithmetic on these
operands is exact, embedded as `ℚ`.
-/
def taxedprice_eur_per_kwh (netEurPerKwh : ℚ) : ℚ := netEurPerKwh * 1.255

namespace Api

/--
The per-row conversion of `fetch_api_prices` in `spotpriceadvisor_api.py`
(lines 226-229): the API price is net euro cents per kWh; divide by 100 to
euros, apply the tax multiplier, multiply by 100 back to cents.
-/
def grossSntPerKwh (priceSntNet : ℚ) : ℚ :=
  let netEurPerKwh := priceSntNet / 100
  let grossEurPerKwh := taxedprice_eur_per_kwh netEurPerKwh
  grossEurPerKwh * 100

end Api

/--
Claim C7: the API variant's conversion is exactly the spec formula
`gross_cents_per_kwh = net_value_in_eur_per_kwh * tax_multiplier * 100` and
collapses to multiplication by the exact constant `1.255`, with no rounding;
moreover the tax multiplier `1.255 = 251/200` is not representable as
`m / 2^k` for any integers, so any binary floating-point evaluation of it
(as `spotpriceadvisor.py` line 26 performs with `1.255 * float(taxfree)`)
necessarily rounds.
-/
theorem api_conversion_exact_decimal :
    (∀ p : ℚ, Api.grossSntPerKwh p = p / 100 * 1.255 * 100
      ∧ Api.grossSntPerKwh p = p * 1.255)
    ∧ ¬ ∃ (m : ℤ) (k : ℕ), taxedprice_eur_per_kwh 1 = m / 2 ^ k := by
  constructor
  · intro p
    refine ⟨rfl, ?_⟩
    unfold Api.grossSntPerKwh taxedprice_eur_per_kwh
    ring
  · rintro ⟨m, k, h⟩
    rw [show taxedprice_eur_per_kwh 1 = 1255 / 1000 by
      unfold taxedprice_eur_per_kwh; norm_num] at h
    have h2 : (1255 : ℚ) * 2 ^ k = m * 1000 := by
      rw [div_eq_div_iff (by norm_num) (by positivity)] at h
      linarith
    have h3 : (1255 : ℤ) * 2 ^ k = m * 1000 := by exact_mod_cast h2
    have h4 : (5 : ℤ) ∣ 251 * 2 ^ k := ⟨m * 40, by linarith⟩
    have hp : Prime (5 : ℤ) := by norm_num
    rcases hp.dvd_mul.mp h4 with hd | hd
    · omega
    · have := hp.dvd_of_dvd_pow hd
      omega

/-- Claim C7 witness: the conversion at the concrete net price `10` cents
per kWh gives exactly `12.55` gross cents, and `1.255` differs from the
dyadic `5 / 2^2`. -/
theorem api_conversion_exact_decimal_witness :
    Api.grossSntPerKwh 10 = 12.55 ∧ taxedprice_eur_per_kwh 1 ≠ 5 / 2 ^ 2 := by
  constructor
  · rw [(api_conversion_exact_decimal.1 10).2]
    norm_num
  · intro hc
    exact api_conversion_exact_decimal.2 ⟨5, 2, by push_cast; exact hc⟩

/--
`price_significantly_less(new_price, og_price)` from `spotpriceadvisor.py`
lines 36-39: `True` exactly when `new_price < og_price * 0.9`.
-/
def price_significantly_less (newPrice ogPrice : ℚ) : Bool :=
  decide (newPrice < ogPrice * (0.9 : ℚ))

/--
Numeric value of the Python expression `x and b` (a float `and` a bool)
when it is then used in arithmetic, as happens on `spotpriceadvisor.py`
line 139: when `x == 0.0` (falsy) the expression is `x`, i.e. `0`;
otherwise it is the boolean `b`, which arithmetic treats as `1` or `0`.
-/
def pyAndValue (x : ℚ) (b : Bool) : ℚ := if x = 0 then 0 else if b then 1 else 0

/--
The condition guarding the hourly variant's 12-hour sentence,
`spotpriceadvisor.py` line 139, exactly as written:
`price_significantly_less(lowest_price_in_12h, past_7d_avg_price and lowest_price_in_12h < future_3h_avg_price)` —
the `and`-expression lands in the `og_price * 0.9` multiplication.
-/
def hourly12hSentence (lowest12 future3h pastAvg : ℚ) : Bool :=
  price_significantly_less lowest12 (pyAndValue pastAvg (decide (lowest12 < future3h)))

/--
The condition guarding the API variant's 12-hour sentence,
`spotpriceadvisor_api.py` line 328: `if best_12h and best_12h[1] < current_avg`
(`spotpriceadvisor-q15.py` lines 256-259 is the same condition given that
`current_avg` is set there whenever the guard is reached).
-/
def api12hSentence (best12h : Option (Int × ℚ)) (currentAvg : ℚ) : Bool :=
  match best12h with
  | none => false
  | some b => decide (b.2 < currentAvg)

/--
Claim C8: in the quarter-hour variants the 12-hour sentence is emitted
exactly when a 12 h best window exists and its average is strictly below the
current-window average.  In the hourly variant the claimed condition
("cheaper than current and significantly below the 7-day baseline") does not
match the code: at `lowest12 = 5`, `future3h = 9`, `pastAvg = 10` the claimed
condition holds (`5 < 9` and `5 < 10 * 0.9`), yet the code's condition is
false, because line 139 passes the boolean expression
`past_7d_avg_price and lowest12 < future3h` as the `og_price` argument, so
the test degenerates to `5 < 1 * 0.9`.
-/
theorem near_horizon_sentence_condition :
    (∀ (best12h : Option (Int × ℚ)) (currentAvg : ℚ),
        api12hSentence best12h currentAvg = true
          ↔ ∃ p : Int × ℚ, best12h = some p ∧ p.2 < currentAvg)
    ∧ hourly12hSentence 5 9 10 = false
    ∧ ((5 : ℚ) < 9 ∧ price_significantly_less 5 10 = true) := by
  refine ⟨?_, ?_, by norm_num, ?_⟩
  · intro b12 c
    cases b12 <;> simp [api12hSentence]
  · norm_num [hourly12hSentence, price_significantly_less, pyAndValue]
  · norm_num [price_significantly_less]

/-- Claim C8 witness: the quarter-hour condition instantiated at a concrete
12 h window cheaper than the current average. -/
theorem near_horizon_sentence_condition_witness :
    api12hSentence (some ((900 : Int), (3 : ℚ))) 4 = true :=
  (near_horizon_sentence_condition.1 (some ((900 : Int), (3 : ℚ))) 4).mpr
    ⟨((900 : Int), (3 : ℚ)), rfl, by norm_num⟩

/--
`past = [p for ts, p in prices if ts < cur_q15_ts]` from
`spotpriceadvisor_api.py` line 301: the prices (values only) of the points
strictly before the reference timestamp.
-/
def pastOf (prices : List (Int × ℚ)) (refTs : Int) : List ℚ :=
  (prices.filter (fun x => decide (x.1 < refTs))).map Prod.snd

/--
`future = [(ts, p) for ts, p in prices if ts >= cur_q15_ts]` from
`spotpriceadvisor_api.py` line 302: the points at or after the reference
timestamp.
-/
def futureOf (prices : List (Int × ℚ)) (refTs : Int) : List (Int × ℚ) :=
  prices.filter (fun x => decide (refTs ≤ x.1))

/-- Filtering a list by a predicate and by its negation partitions it. -/
theorem length_filter_add_length_filter_not (p : α → Bool) (l : List α) :
    (l.filter p).length + (l.filter (fun a => !p a)).length = l.length := by
  induction l with
  | nil => rfl
  | cons a t ih =>
    cases h : p a <;> simp [List.filter_cons, h] <;> omega

/--
Claim C9: the past/future split is an exact partition of the input — the
future list holds exactly the points with `refTs ≤ timestamp`, every point
with `timestamp < refTs` lands (as its price) in the past list, no point of
the future list is before `refTs`, and the two lengths add up to the input
length, so every input point lands in exactly one side.
-/
theorem split_exact_partition (prices : List (Int × ℚ)) (refTs : Int) :
    (∀ x : Int × ℚ, x ∈ futureOf prices refTs ↔ x ∈ prices ∧ refTs ≤ x.1)
    ∧ (∀ x : Int × ℚ, x ∈ prices → x.1 < refTs → x.2 ∈ pastOf prices refTs)
    ∧ (∀ x : Int × ℚ, x ∈ futureOf prices refTs → ¬ x.1 < refTs)
    ∧ (pastOf prices refTs).length + (futureOf prices refTs).length = prices.length := by
  refine ⟨?_, ?_, ?_, ?_⟩
  · intro x
    simp [futureOf, List.mem_filter]
  · intro x hx hlt
    exact List.mem_map_of_mem Prod.snd (List.mem_filter.mpr ⟨hx, by simpa using hlt⟩)
  · intro x hx
    have h := (List.mem_filter.mp hx).2
    simp at h
    omega
  · unfold pastOf futureOf
    rw [List.length_map]
    have hfun : (fun x : Int × ℚ => decide (refTs ≤ x.1))
        = fun x : Int × ℚ => !decide (x.1 < refTs) := by
      funext x
      rcases lt_or_le x.1 refTs with h | h
      · simp [h, not_le.mpr h]
      · simp [h, not_lt.mpr h]
    rw [hfun]
    exact length_filter_add_length_filter_not _ _

/-- Claim C9 witness: the partition at a concrete two-point series with the
reference timestamp between them. -/
theorem split_exact_partition_witness :
    ((900 : Int), (2 : ℚ)) ∈ futureOf [((0 : Int), (1 : ℚ)), (900, 2)] 900
    ∧ (1 : ℚ) ∈ pastOf [((0 : Int), (1 : ℚ)), (900, 2)] 900 := by
  have h := split_exact_partition [((0 : Int), (1 : ℚ)), (900, 2)] 900
  exact ⟨(h.1 (900, 2)).mpr ⟨by simp, by norm_num⟩, h.2.1 (0, 1) (by simp) (by norm_num)⟩

/--
One key-value assignment of the dict comprehension
`{ts: taxedprice(price/10) for ts, price in rows}` in `spotpriceadvisor.py`
line 94, on an insertion-ordered association list: an existing key keeps its
position and gets the new value; a new key is appended.
-/
def dictInsert (m : List (Int × ℚ)) (kv : Int × ℚ) : List (Int × ℚ) :=
  if m.any (fun e => decide (e.1 = kv.1)) then
    m.map (fun e => if e.1 = kv.1 then (e.1, kv.2) else e)
  else m ++ [kv]

/-- The whole dict comprehension of `spotpriceadvisor.py` line 94 (the
price-value computation itself is irrelevant to the keep-last-seen claim and
is applied to the row values before insertion). -/
def pricesDict (rows : List (Int × ℚ)) : List (Int × ℚ) :=
  rows.foldl dictInsert []

/-- `prices.get(ts)` / `prices[ts]` on the association-list embedding of the
Python dict. -/
def dictLookup (m : List (Int × ℚ)) (ts : Int) : Option ℚ :=
  (m.find? (fun e => decide (e.1 = ts))).map Prod.snd

/-- The price of the last-seen row carrying timestamp `ts`, scanning the raw
rows left to right and remembering the latest match — the reference the
claim states for duplicate handling. -/
def lastPriceFor (rows : List (Int × ℚ)) (ts : Int) : Option ℚ :=
  rows.foldl (fun acc r => if r.1 = ts then some r.2 else acc) none

theorem dictLookup_dictInsert (m : List (Int × ℚ)) (r : Int × ℚ) (ts : Int) :
    dictLookup (dictInsert m r) ts = if r.1 = ts then some r.2 else dictLookup m ts := by
  unfold dictInsert dictLookup
  by_cases hany : m.any (fun e => decide (e.1 = r.1)) = true
  · rw [if_pos hany, List.find?_map]
    have hkey : ((fun e : Int × ℚ => decide (e.1 = ts))
          ∘ fun e : Int × ℚ => if e.1 = r.1 then (e.1, r.2) else e)
        = fun e : Int × ℚ => decide (e.1 = ts) := by
      funext e
      by_cases he : e.1 = r.1 <;> simp [he]
    rw [hkey]
    cases hfind : m.find? (fun e => decide (e.1 = ts)) with
    | none =>
      by_cases hr : r.1 = ts
      · exfalso
        rcases List.any_eq_true.mp hany with ⟨e, hmem, hpe⟩
        have hsome : (m.find? fun e => decide (e.1 = ts)).isSome :=
          List.find?_isSome.mpr ⟨e, hmem, by simp at hpe ⊢; omega⟩
        rw [hfind] at hsome
        simp at hsome
      · simp [hr]
    | some e0 =>
      have he0 : e0.1 = ts := by simpa using List.find?_some hfind
      by_cases hr : r.1 = ts
      · simp [hr, he0.trans hr.symm]
      · have : e0.1 ≠ r.1 := by rw [he0]; exact fun h => hr h.symm
        simp [hr, this]
  · rw [if_neg hany, List.find?_append]
    by_cases hr : r.1 = ts
    · have hnone : m.find? (fun e => decide (e.1 = ts)) = none := by
        cases hfind : m.find? (fun e => decide (e.1 = ts)) with
        | none => rfl
        | some e0 =>
          exfalso
          apply hany
          have hmem := List.mem_of_find?_eq_some hfind
          have he0 : e0.1 = ts := by simpa using List.find?_some hfind
          exact List.any_eq_true.mpr ⟨e0, hmem, by simp [he0, hr]⟩
      rw [hnone]
      simp [List.find?, hr, Option.or]
    · rw [show List.find? (fun e => decide (e.1 = ts)) [r] = none from by simp [List.find?, hr],
        if_neg hr]
      cases List.find? (fun e => decide (e.1 = ts)) m <;> rfl

theorem lastPriceFor_acc (rest : List (Int × ℚ)) :
    ∀ (acc : Option ℚ) (ts : Int),
      rest.foldl (fun acc r => if r.1 = ts then some r.2 else acc) acc
        = (lastPriceFor rest ts).or acc := by
  induction rest with
  | nil =>
    intro acc ts
    simp [lastPriceFor, Option.or]
  | cons r t ih =>
    intro acc ts
    have hc : lastPriceFor (r :: t) ts
        = (lastPriceFor t ts).or (if r.1 = ts then some r.2 else none) := by
      show List.foldl _ none (r :: t) = _
      rw [List.foldl_cons, ih]
    rw [List.foldl_cons, ih, hc]
    cases lastPriceFor t ts <;> by_cases hr : r.1 = ts <;> simp [hr, Option.or]

theorem lastPriceFor_cons (r : Int × ℚ) (rest : List (Int × ℚ)) (ts : Int) :
    lastPriceFor (r :: rest) ts
      = (lastPriceFor rest ts).or (if r.1 = ts then some r.2 else none) := by
  show List.foldl _ none (r :: rest) = _
  rw [List.foldl_cons, lastPriceFor_acc]

theorem lastPriceFor_append (l1 l2 : List (Int × ℚ)) (ts : Int) :
    lastPriceFor (l1 ++ l2) ts = (lastPriceFor l2 ts).or (lastPriceFor l1 ts) := by
  show List.foldl _ none (l1 ++ l2) = _
  rw [List.foldl_append, lastPriceFor_acc]
  rfl

theorem dictLookup_foldl (rows : List (Int × ℚ)) :
    ∀ (m : List (Int × ℚ)) (ts : Int),
      dictLookup (rows.foldl dictInsert m) ts
        = (lastPriceFor rows ts).or (dictLookup m ts) := by
  induction rows with
  | nil =>
    intro m ts
    simp [lastPriceFor, Option.or]
  | cons r rest ih =>
    intro m ts
    rw [List.foldl_cons, ih, dictLookup_dictInsert, lastPriceFor_cons]
    cases lastPriceFor rest ts <;> by_cases hr : r.1 = ts <;> simp [hr, Option.or]

/--
Claim C10: the timestamp-to-price map built by the hourly variant's dict
comprehension resolves duplicate timestamps by keeping the last-seen row's
price (lookup of the built dict coincides with a left-to-right
remember-the-latest scan of the raw rows, for every row list and key), and
dropping an earlier duplicate row changes no lookup result, so it can have
no effect on anything computed from the map.  Duplicates are consumed, never
an error.
-/
theorem price_map_keeps_last_seen :
    (∀ (rows : List (Int × ℚ)) (ts : Int),
        dictLookup (pricesDict rows) ts = lastPriceFor rows ts)
    ∧ (∀ (pre mid post : List (Int × ℚ)) (t : Int) (a b : ℚ) (ts : Int),
        dictLookup (pricesDict (pre ++ (t, a) :: (mid ++ (t, b) :: post))) ts
          = dictLookup (pricesDict (pre ++ (mid ++ (t, b) :: post))) ts) := by
  have hmain : ∀ (rows : List (Int × ℚ)) (ts : Int),
      dictLookup (pricesDict rows) ts = lastPriceFor rows ts := by
    intro rows ts
    unfold pricesDict
    rw [dictLookup_foldl]
    cases h : lastPriceFor rows ts <;> simp [dictLookup, Option.or]
  refine ⟨hmain, ?_⟩
  intro pre mid post t a b ts
  rw [hmain, hmain, lastPriceFor_append, lastPriceFor_append, lastPriceFor_cons]
  congr 1
  by_cases ht : t = ts
  · rw [if_pos ht, lastPriceFor_append, lastPriceFor_cons, if_pos ht]
    cases lastPriceFor post ts <;> cases lastPriceFor mid ts <;> simp [Option.or]
  · rw [if_neg ht]
    cases lastPriceFor (mid ++ (t, b) :: post) ts <;> simp [Option.or]

/-- Claim C10 witness: on concrete rows with a duplicated timestamp the
built dict yields the later price, and dropping the earlier duplicate
changes nothing. -/
theorem price_map_keeps_last_seen_witness :
    dictLookup (pricesDict [((0 : Int), (1 : ℚ)), (900, 2), (0, 7)]) 0 = some 7
    ∧ dictLookup (pricesDict [((0 : Int), (1 : ℚ)), (900, 2), (0, 7)]) 0
        = dictLookup (pricesDict [((900 : Int), (2 : ℚ)), (0, 7)]) 0 := by
  constructor
  · rw [price_map_keeps_last_seen.1 [((0 : Int), (1 : ℚ)), (900, 2), (0, 7)] 0]
    norm_num [lastPriceFor]
  · exact price_map_keeps_last_seen.2 [] [((900 : Int), (2 : ℚ))] [] 0 1 7 0

end SpotPriceAdvisor
